import Mathlib

/-!
Shallow embedding of the txm terminal-multiplexer dispatcher (Go) for
verification of its specification claims.

The program shells out to external multiplexer binaries.  We embed each
adapter operation as an explicit state-passing function: the state is the
list of subprocess commands spawned so far (the trace), and a `World`
oracle decides, for the i-th spawned command, whether it exits
successfully, what its captured stdout is, and how a failed spawn renders
as an error message.  Pure helpers (backend parsing, selection, string
colorizing) are embedded as plain functions.
-/

namespace Txm

/-- Backend enumeration, from `Backend` in the config source
(`BackendTmux`, `BackendZellij`, `BackendScreen`). -/
inductive Backend where
  | tmux
  | zellij
  | screen
deriving DecidableEq, Repr

/-- String rendering of a backend, from `Backend.String()` (the `default:`
branch returning "unknown" is unreachable for the three variants). -/
def Backend.toName : Backend → String
  | .tmux => "tmux"
  | .zellij => "zellij"
  | .screen => "screen"

/-- Configuration record, from `Config` (fields `DefaultBackend` and
`BackendOrder`). -/
structure Config where
  DefaultBackend : Backend
  BackendOrder : List Backend
deriving DecidableEq, Repr

/-- The fallback scan of `selectBestBackend` (src/unnamed/part_017):
`for _, backend := range sm.config.BackendOrder { if avail(backend) return backend }`
followed by the ultimate fallback `return BackendTmux`. -/
def selectFromOrder (avail : Backend → Bool) : List Backend → Backend
  | [] => Backend.tmux
  | b :: rest => if avail b then b else selectFromOrder avail rest

/-- `selectBestBackend` (src/unnamed/part_017 lines 11-26).  Availability is
passed as an input (in the source it is read from the session manager's
probed fields via `isBackendAvailable`). -/
def selectBestBackend (config : Config) (avail : Backend → Bool) : Backend :=
  if avail config.DefaultBackend then config.DefaultBackend
  else selectFromOrder avail config.BackendOrder

/-- Error kind for configuration parsing.  Modelled from the spec:
"any other string is an error (ErrorKind: InvalidBackendName), carrying the
offending string for the message". -/
inductive ConfigError where
  | invalidBackendName : String → ConfigError
deriving DecidableEq, Repr

/-- Go stdlib `strings.ToLower`, character-wise (the backend names compared
against are plain ASCII, for which this agrees with Go's Unicode folding). -/
def goToLower (s : String) : String :=
  String.mk (s.data.map Char.toLower)

/-- Modelled from the spec: the repository's current configuration source
file (the `ParseBackend` returning `(Backend, error)`) is not among the
provided sources; only an older snapshot of it is (src/unnamed/part_007,
whose one-value signature no longer matches the current tests in
src/unnamed/part_005 and the current caller in src/unnamed/part_004).
Per the spec: "Parsing a backend identifier: case-insensitive match against
the three known names; any other string is an error (ErrorKind:
InvalidBackendName), carrying the offending string for the message." -/
def ParseBackend (s : String) : Except ConfigError Backend :=
  let t := goToLower s
  if t = "tmux" then .ok Backend.tmux
  else if t = "zellij" then .ok Backend.zellij
  else if t = "screen" then .ok Backend.screen
  else .error (.invalidBackendName s)

/-- Modelled from the spec: the current `NewDefaultConfig` is in the missing
configuration source file.  Per the spec: "on missing/corrupt file, returns
compiled-in defaults (default backend = primary, fallback order = [primary,
legacy, modern])", i.e. default tmux with order [tmux, screen, zellij]
(this is also what the current test `TestNewDefaultConfig` in
src/unnamed/part_005 expects). -/
def NewDefaultConfig : Config :=
  { DefaultBackend := Backend.tmux
    BackendOrder := [Backend.tmux, Backend.screen, Backend.zellij] }

/-- Modelled from the spec: the current `LoadConfig` is in the missing
configuration source file.  Inputs abstract the two external sources: the
backend value found in the config file's `backend`/`default_backend` key
(`none` when no file or no such key) and the override environment variable
(`none` when unset or empty).  Per the spec: resolution order is environment
over file over compiled-in defaults, and an invalid backend name from either
source is ignored, not fatal. -/
def LoadConfig (fileVal : Option String) (envVal : Option String) : Config :=
  let c1 :=
    match fileVal with
    | none => NewDefaultConfig
    | some v =>
      match ParseBackend v with
      | .ok b => { NewDefaultConfig with DefaultBackend := b }
      | .error _ => NewDefaultConfig
  match envVal with
  | none => c1
  | some v =>
    match ParseBackend v with
    | .ok b => { c1 with DefaultBackend := b }
    | .error _ => c1

/-- ANSI reset code, from the `colorReset` constant in src/unnamed/part_004. -/
def colorReset : String := "\x1b[0m"

/-- `colorize` (src/unnamed/part_004 lines 439-452).  The source is a method
reading `sm.useColors`; that flag is passed explicitly here, and the
verbose-mode stderr prints (pure side effects on the return value) are
dropped. -/
def colorize (useColors : Bool) (color text : String) : String :=
  if useColors then color ++ text ++ colorReset else text

end Txm

namespace Txm

/-- A spawned subprocess command line: program name and argument vector. -/
structure Cmd where
  prog : String
  args : List String
deriving DecidableEq, Repr

/-- Errors as the Go adapters produce them: `msg` for a `fmt.Errorf`-built
error and `execMsg` for an error propagated from running a subprocess
(carrying the text the runtime would render for it). -/
inductive GoError where
  | msg : String → GoError
  | execMsg : String → GoError
deriving DecidableEq, Repr

/-- The text of an error as `%v` formatting would render it. -/
def GoError.render : GoError → String
  | .msg s => s
  | .execMsg s => s

/-- The environment's behaviour for each spawned subprocess, indexed by the
position of the spawn in the run (the length of the trace at spawn time):
whether `cmd.Run()` succeeds, what `cmd.Output()` captures (`none` when the
command fails), and the message a failed run renders. -/
structure World where
  runOk : Nat → Cmd → Bool
  outputOf : Nat → Cmd → Option String
  errText : Nat → Cmd → String

/-- `cmd.Run()`: records the spawn on the trace and reports success or the
run's error. -/
def runCmd (c : Cmd) (w : World) (tr : List Cmd) :
    Except GoError Unit × List Cmd :=
  (if w.runOk tr.length c then .ok () else .error (.execMsg (w.errText tr.length c)),
   tr ++ [c])

/-- `cmd.Output()`: records the spawn and yields the captured stdout or the
run's error. -/
def runCmdOutput (c : Cmd) (w : World) (tr : List Cmd) :
    Except GoError String × List Cmd :=
  (match w.outputOf tr.length c with
   | some out => .ok out
   | none => .error (.execMsg (w.errText tr.length c)),
   tr ++ [c])

/-- `runScreenCommand` (src/screen.go lines 12-19). -/
def runScreenCommand (args : List String) (w : World) (tr : List Cmd) :
    Except GoError Unit × List Cmd :=
  runCmd { prog := "screen", args := args } w tr

/-- `screenSplitWindow` (src/screen.go lines 124-129), transcribed as
written: the `"h"` direction runs `screen -S session -X split -v`, every
other direction returns the error
"horizontal splitting not supported in screen". -/
def screenSplitWindow (session window direction : String) (w : World)
    (tr : List Cmd) : Except GoError Unit × List Cmd :=
  if direction = "h" then
    runScreenCommand ["-S", session, "-X", "split", "-v"] w tr
  else
    (.error (.msg "horizontal splitting not supported in screen"), tr)

/-- The screen branch of the live dispatcher `splitWindow`
(src/unnamed/part_004 lines 931-941): direction `"v"` runs
`screen -S session -X split`, anything else only logs
"Horizontal window splitting is not supported in GNU Screen" (represented
here as an error value; the dispatcher returns nothing). -/
def splitWindowScreenBranch (session direction : String) (w : World)
    (tr : List Cmd) : Except GoError Unit × List Cmd :=
  if direction = "v" then
    runScreenCommand ["-S", session, "-X", "split"] w tr
  else
    (.error (.msg "Horizontal window splitting is not supported in GNU Screen"), tr)

/-- `runTmuxCommand` (src/tmux.go lines 33-40). -/
def runTmuxCommand (args : List String) (w : World) (tr : List Cmd) :
    Except GoError Unit × List Cmd :=
  runCmd { prog := "tmux", args := args } w tr

/-- `tmuxResizePane` (src/tmux.go lines 132-143): builds the compound pane
target `session:window.pane`, picks the resize flag (default `-U`, else
`-D`/`-L`/`-R`), and runs
`tmux resize-pane <flag> <size> -t <target>`. -/
def tmuxResizePane (session window pane direction : String) (size : Int)
    (w : World) (tr : List Cmd) : Except GoError Unit × List Cmd :=
  let paneTarget := session ++ ":" ++ window ++ "." ++ pane
  let resizeFlag :=
    if direction = "D" then "-D"
    else if direction = "L" then "-L"
    else if direction = "R" then "-R"
    else "-U"
  runTmuxCommand ["resize-pane", resizeFlag, toString size, "-t", paneTarget] w tr

/-- A world whose commands all succeed, for concrete evaluations. -/
def trivialWorld : World :=
  { runOk := fun _ _ => true
    outputOf := fun _ _ => some ""
    errText := fun _ _ => "" }

/-- Whether `pat` is a leading run of `s` (helper for the substring test). -/
def charsLead : List Char → List Char → Bool
  | _, [] => true
  | [], _ :: _ => false
  | c :: cs, p :: ps => (c == p) && charsLead cs ps

/-- Whether `pat` occurs contiguously anywhere in `s`. -/
def charsContain : List Char → List Char → Bool
  | [], pat => pat.isEmpty
  | c :: cs, pat => charsLead (c :: cs) pat || charsContain cs pat

/-- Go stdlib `strings.Contains`: `pat` occurs as a contiguous substring of
`s` (the empty pattern is contained in everything). -/
def strContains (s pat : String) : Bool :=
  charsContain s.data pat.data

/-- `pat` occurs contiguously in `s` — the specification-side reading of
`strings.Contains`. -/
def occursIn (pat s : String) : Prop :=
  ∃ l r, s.data = l ++ pat.data ++ r

/-- Decimal digit value of a character. -/
def decDigit? (c : Char) : Option Nat :=
  if '0' ≤ c ∧ c ≤ '9' then some (c.toNat - '0'.toNat) else none

/-- Accumulating decimal evaluation; `none` on any non-digit. -/
def digitsValAux : Nat → List Char → Option Nat
  | acc, [] => some acc
  | acc, c :: cs =>
    match decDigit? c with
    | some d => digitsValAux (acc * 10 + d) cs
    | none => none

/-- Value of a nonempty all-digit run; `none` otherwise. -/
def digitsVal (ds : List Char) : Option Nat :=
  match ds with
  | [] => none
  | _ => digitsValAux 0 ds

/-- Go stdlib `strconv.Atoi`: an optional sign followed by one or more
decimal digits; anything else is an error (`none`).  64-bit overflow is not
modelled: the adapter below only compares the parsed value with 0 and the
claims use small pane numbers. -/
def goAtoi (s : String) : Option Int :=
  match s.data with
  | '+' :: ds => (digitsVal ds).map (fun n => (n : Int))
  | '-' :: ds => (digitsVal ds).map (fun n => -(n : Int))
  | _ => (digitsVal s.data).map (fun n => (n : Int))

/-- The `zellij list-sessions` command spawned by `runZellijCommandOutput`
in `zellijSessionExists` (src/zellij.go lines 56-61, 117). -/
def lsCmd : Cmd := { prog := "zellij", args := ["list-sessions"] }

/-- Command built by `runZellijCommandWithSession` (src/zellij.go lines
46-54): `zellij -s <session> <args...>`. -/
def zellijSessionCmd (session : String) (args : List String) : Cmd :=
  { prog := "zellij", args := ["-s", session] ++ args }

/-- `runZellijCommandWithSession` as a traced run. -/
def runZellijCommandWithSession (session : String) (args : List String)
    (w : World) (tr : List Cmd) : Except GoError Unit × List Cmd :=
  runCmd (zellijSessionCmd session args) w tr

/-- `zellijSessionExists` (src/zellij.go lines 116-125): runs
`zellij list-sessions` capturing output; if that fails, assumes no sessions
exist; otherwise a plain substring check of the name against the raw
output. -/
def zellijSessionExists (name : String) (w : World) (tr : List Cmd) :
    Bool × List Cmd :=
  let r := runCmdOutput lsCmd w tr
  match r.1 with
  | .error _ => (false, r.2)
  | .ok out => (strContains out name, r.2)

/-- The already-exists error text of `zellijCreateSession`. -/
def zellijExistsMsg (name : String) : String :=
  "session with name \"" ++ name ++
    "\" already exists. Use attach command to connect to it or specify a different name"

/-- The missing-session error text used across the zellij adapter. -/
def zellijNoSessionMsg (name : String) : String :=
  "session \x27" ++ name ++ "\x27 does not exist"

/-- The post-creation verification failure text of `zellijCreateSession`. -/
def zellijNotFoundMsg : String :=
  "session creation appeared to succeed but session not found"

/-- `zellijCreateSession` (src/zellij.go lines 65-91): refuse when the name
already appears in the session listing; otherwise spawn
`zellij attach --create-background <name>`, wrap its failure, and verify
post-creation that the session is listed. -/
def zellijCreateSession (name : String) (w : World) (tr : List Cmd) :
    Except GoError Unit × List Cmd :=
  let e1 := zellijSessionExists name w tr
  if e1.1 then (.error (.msg (zellijExistsMsg name)), e1.2)
  else
    let r := runCmd { prog := "zellij", args := ["attach", "--create-background", name] } w e1.2
    match r.1 with
    | .error err =>
      (.error (.msg ("failed to create zellij session: " ++ err.render)), r.2)
    | .ok _ =>
      let e2 := zellijSessionExists name w r.2
      if e2.1 = false then (.error (.msg zellijNotFoundMsg), e2.2)
      else (.ok (), e2.2)

/-- The focus-reset commands and the focus-advance command of
`zellijFocusPane`. -/
def zellijLeftCmd (session : String) : Cmd :=
  zellijSessionCmd session ["action", "move-focus-or-tab", "left"]

/-- The second focus-reset command (move focus up). -/
def zellijUpCmd (session : String) : Cmd :=
  zellijSessionCmd session ["action", "move-focus-or-tab", "up"]

/-- The focus-advance command. -/
def zellijNextPaneCmd (session : String) : Cmd :=
  zellijSessionCmd session ["action", "focus-next-pane"]

/-- The close-pane command of `zellijKillPane`. -/
def zellijClosePaneCmd (session : String) : Cmd :=
  zellijSessionCmd session ["action", "close-pane"]

/-- The focus-advance loop of `zellijFocusPane` (src/zellij.go lines
285-290): up to `n` `focus-next-pane` actions, stopping after the first one
that fails (the failing spawn is still on the trace). -/
def focusWalk (session : String) (w : World) : Nat → List Cmd → List Cmd
  | 0, tr => tr
  | n + 1, tr =>
    let r := runCmd (zellijNextPaneCmd session) w tr
    match r.1 with
    | .error _ => r.2
    | .ok _ => focusWalk session w n r.2

/-- `zellijFocusPane` (src/zellij.go lines 258-293): after the session
check, an empty or "0" pane means the current pane (no commands); otherwise
reset focus (left, up; results ignored), parse the pane number (default 1,
kept only when positive), and advance focus `target - 1` times. -/
def zellijFocusPane (session window pane : String) (w : World)
    (tr : List Cmd) : Except GoError Unit × List Cmd :=
  let e := zellijSessionExists session w tr
  if e.1 = false then (.error (.msg (zellijNoSessionMsg session)), e.2)
  else if pane = "" ∨ pane = "0" then (.ok (), e.2)
  else
    let t1 := (runCmd (zellijLeftCmd session) w e.2).2
    let t2 := (runCmd (zellijUpCmd session) w t1).2
    let targetPane : Int :=
      match goAtoi pane with
      | some p => if 0 < p then p else 1
      | none => 1
    (.ok (), focusWalk session w (targetPane - 1).toNat t2)

/-- `zellijKillPane` (src/zellij.go lines 307-321): session check, then the
focus walk (whose error, if any, is only logged), then the close-pane
action on whatever pane is focused. -/
def zellijKillPane (session window pane : String) (w : World)
    (tr : List Cmd) : Except GoError Unit × List Cmd :=
  let e := zellijSessionExists session w tr
  if e.1 = false then (.error (.msg (zellijNoSessionMsg session)), e.2)
  else
    let f := zellijFocusPane session window pane w e.2
    runCmd (zellijClosePaneCmd session) w f.2

/-- The direction switch of `zellijResizePane` (src/zellij.go lines
334-346). -/
def zellijResizeDir : String → Option String
  | "U" => some "up"
  | "D" => some "down"
  | "L" => some "left"
  | "R" => some "right"
  | _ => none

/-- The resize command of `zellijResizePane`. -/
def zellijResizeCmd (session dir : String) : Cmd :=
  zellijSessionCmd session ["action", "resize", dir]

/-- The resize loop of `zellijResizePane` (src/zellij.go lines 350-354):
`size` resize actions, returning the first failure as-is. -/
def resizeLoop (session dir : String) (w : World) :
    Nat → List Cmd → Except GoError Unit × List Cmd
  | 0, tr => (.ok (), tr)
  | n + 1, tr =>
    let r := runCmd (zellijResizeCmd session dir) w tr
    match r.1 with
    | .error e => (.error e, r.2)
    | .ok _ => resizeLoop session dir w n r.2

/-- `zellijResizePane` (src/zellij.go lines 323-356): session check, focus
walk (error only logged), direction switch, then `size` resize actions. -/
def zellijResizePane (session window pane direction : String) (size : Int)
    (w : World) (tr : List Cmd) : Except GoError Unit × List Cmd :=
  let e := zellijSessionExists session w tr
  if e.1 = false then (.error (.msg (zellijNoSessionMsg session)), e.2)
  else
    let f := zellijFocusPane session window pane w e.2
    match zellijResizeDir direction with
    | none =>
      (.error (.msg ("invalid resize direction for zellij: " ++ direction)), f.2)
    | some dir => resizeLoop session dir w size.toNat f.2

/-- `zellijSendKeys` (src/zellij.go lines 358-372): session check, focus
walk (error only logged), then `write-chars` on the focused pane. -/
def zellijSendKeys (session window pane keys : String) (w : World)
    (tr : List Cmd) : Except GoError Unit × List Cmd :=
  let e := zellijSessionExists session w tr
  if e.1 = false then (.error (.msg (zellijNoSessionMsg session)), e.2)
  else
    let f := zellijFocusPane session window pane w e.2
    runCmd (zellijSessionCmd session ["action", "write-chars", keys]) w f.2

/-- A world for concrete zellij runs: every command succeeds and every
captured listing is "mysession [CREATED 1s ago]". -/
def zellijWorld : World :=
  { runOk := fun _ _ => true
    outputOf := fun _ _ => some "mysession [CREATED 1s ago]"
    errText := fun _ _ => "exit status 1" }

/-- A world where the spawn at position 4 (the first focus-advance of a
kill-pane run started on an empty trace) fails and everything else
succeeds. -/
def zellijStopWorld : World :=
  { runOk := fun i _ => decide (i ≠ 4)
    outputOf := fun _ _ => some "mysession [CREATED 1s ago]"
    errText := fun _ _ => "exit status 1" }

end Txm

namespace Txm

/- Theorems -/

/-- C1: `selectBestBackend` returns the configured default backend whenever
it is available; otherwise the first available backend in the
configuration's fallback order (`List.find?` over `BackendOrder`); and when
no backend in the order is available, the primary backend tmux. -/
theorem selectBestBackend_spec (config : Config) (avail : Backend → Bool) :
    (avail config.DefaultBackend = true →
      selectBestBackend config avail = config.DefaultBackend) ∧
    (avail config.DefaultBackend = false →
      ∀ b, config.BackendOrder.find? avail = some b →
        selectBestBackend config avail = b) ∧
    (avail config.DefaultBackend = false →
      config.BackendOrder.find? avail = none →
        selectBestBackend config avail = Backend.tmux) := by
  have hsel : ∀ (l : List Backend),
      selectFromOrder avail l = (l.find? avail).getD Backend.tmux := by
    intro l
    induction l with
    | nil => rfl
    | cons b rest ih =>
      by_cases hb : avail b
      · simp [selectFromOrder, hb, List.find?_cons_of_pos]
      · simp only [Bool.not_eq_true] at hb
        simp [selectFromOrder, hb, List.find?_cons_of_neg, ih]
  refine ⟨fun h => by simp [selectBestBackend, h], fun h b hb => ?_, fun h hn => ?_⟩
  · simp [selectBestBackend, h, hsel, hb]
  · simp [selectBestBackend, h, hsel, hn]

/-- C2 (spec-modelled): loading configuration with no config file and no
override environment variable yields the compiled-in default configuration:
default backend tmux, fallback order exactly [tmux, screen, zellij]. -/
theorem loadConfig_defaults :
    LoadConfig none none = NewDefaultConfig ∧
    NewDefaultConfig.DefaultBackend = Backend.tmux ∧
    NewDefaultConfig.BackendOrder =
      [Backend.tmux, Backend.screen, Backend.zellij] :=
  ⟨rfl, rfl, rfl⟩

/-- C3 (spec-modelled): parsing a backend identifier succeeds
case-insensitively exactly for the three known backend names, and every
other string yields an InvalidBackendName error carrying the offending
string. -/
theorem parseBackend_cases (s : String) :
    (goToLower s = "tmux" → ParseBackend s = .ok Backend.tmux) ∧
    (goToLower s = "zellij" → ParseBackend s = .ok Backend.zellij) ∧
    (goToLower s = "screen" → ParseBackend s = .ok Backend.screen) ∧
    (goToLower s ≠ "tmux" → goToLower s ≠ "zellij" → goToLower s ≠ "screen" →
      ParseBackend s = .error (.invalidBackendName s)) := by
  refine ⟨fun h => ?_, fun h => ?_, fun h => ?_, fun h1 h2 h3 => ?_⟩ <;>
    simp [ParseBackend, *]

/-- Witness for C3: concrete inputs, one per case. -/
theorem parseBackend_cases_witness :
    ParseBackend "TMUX" = .ok Backend.tmux ∧
    ParseBackend "Zellij" = .ok Backend.zellij ∧
    ParseBackend "screen" = .ok Backend.screen ∧
    ParseBackend "bogus" = .error (.invalidBackendName "bogus") :=
  ⟨(parseBackend_cases "TMUX").1 (by decide),
   (parseBackend_cases "Zellij").2.1 (by decide),
   (parseBackend_cases "screen").2.2.1 (by decide),
   (parseBackend_cases "bogus").2.2.2 (by decide) (by decide) (by decide)⟩

/-- C4 (code_bug evidence): `screenSplitWindow` as written inverts the
documented behaviour.  For direction "v" it returns the
"horizontal splitting not supported in screen" error without spawning
anything, and for direction "h" it runs `screen -S s -X split -v`; the
repository's man page, docs and the live dispatcher branch
(`splitWindowScreenBranch`) do the opposite: "v" splits, "h" is refused. -/
theorem screenSplitWindow_eval :
    screenSplitWindow "s" "w0" "v" trivialWorld [] =
      (.error (.msg "horizontal splitting not supported in screen"), []) ∧
    screenSplitWindow "s" "w0" "h" trivialWorld [] =
      (.ok (), [{ prog := "screen", args := ["-S", "s", "-X", "split", "-v"] }]) ∧
    splitWindowScreenBranch "s" "v" trivialWorld [] =
      (.ok (), [{ prog := "screen", args := ["-S", "s", "-X", "split"] }]) ∧
    splitWindowScreenBranch "s" "h" trivialWorld [] =
      (.error (.msg "Horizontal window splitting is not supported in GNU Screen"), []) :=
  ⟨rfl, rfl, rfl, rfl⟩

/-- C6 (spec-modelled): for every string that parses to a valid backend,
loading configuration with the override environment variable set to that
string yields that backend as the effective default, whatever the config
file holds. -/
theorem loadConfig_env_override (s : String) (b : Backend)
    (h : ParseBackend s = .ok b) (fileVal : Option String) :
    (LoadConfig fileVal (some s)).DefaultBackend = b := by
  cases fileVal with
  | none => simp [LoadConfig, h]
  | some v =>
    cases hv : ParseBackend v <;> simp [LoadConfig, h, hv]

/-- Witness for C6: env override "zellij" wins over a file value "tmux". -/
theorem loadConfig_env_override_witness :
    (LoadConfig (some "tmux") (some "zellij")).DefaultBackend = Backend.zellij :=
  loadConfig_env_override "zellij" Backend.zellij rfl (some "tmux")

/-- C7: on the tmux adapter, `resize-pane mysession win0 1 R 10` builds the
compound target "mysession:win0.1" and spawns exactly
`tmux resize-pane -R 10 -t mysession:win0.1`. -/
theorem tmuxResizePane_example (w : World) (tr : List Cmd) :
    tmuxResizePane "mysession" "win0" "1" "R" 10 w tr =
      runCmd { prog := "tmux",
               args := ["resize-pane", "-R", "10", "-t", "mysession:win0.1"] } w tr :=
  rfl

/-- C8: `colorize` is the identity on its text argument when color support
is disabled, and wraps the text in the color code followed by the reset
code when enabled. -/
theorem colorize_spec (color text : String) :
    colorize false color text = text ∧
    colorize true color text = color ++ text ++ colorReset :=
  ⟨rfl, rfl⟩

/-- Appending strings appends their character data. -/
theorem strData_append (s t : String) : (s ++ t).data = s.data ++ t.data := by
  cases s
  cases t
  rfl

/-- Appending strings adds their lengths. -/
theorem strLength_append (s t : String) : (s ++ t).length = s.length + t.length := by
  cases s
  cases t
  exact List.length_append _ _

/-- `charsLead s pat` holds exactly when `pat` is a leading run of `s`. -/
theorem charsLead_iff (pat : List Char) :
    ∀ s : List Char, charsLead s pat = true ↔ ∃ r, s = pat ++ r := by
  induction pat with
  | nil =>
    intro s
    have hu : charsLead s [] = true := by cases s <;> rfl
    rw [hu]
    simp
  | cons p ps ih =>
    intro s
    cases s with
    | nil =>
      constructor
      · intro h
        exact absurd h (by simp [charsLead])
      · rintro ⟨r, hr⟩
        exact absurd hr (by simp)
    | cons c cs =>
      have hu : charsLead (c :: cs) (p :: ps) = ((c == p) && charsLead cs ps) := rfl
      rw [hu, Bool.and_eq_true, beq_iff_eq, ih cs]
      constructor
      · rintro ⟨hc, r, hr⟩
        exact ⟨r, by rw [List.cons_append, hc, hr]⟩
      · rintro ⟨r, hr⟩
        rw [List.cons_append] at hr
        injection hr with hc hrest
        exact ⟨hc, r, hrest⟩

/-- `charsContain s pat` holds exactly when `pat` occurs contiguously in
`s`. -/
theorem charsContain_iff (pat : List Char) :
    ∀ s : List Char, charsContain s pat = true ↔ ∃ l r, s = l ++ pat ++ r := by
  intro s
  induction s with
  | nil =>
    constructor
    · intro h
      have hp : pat = [] := by
        have he : pat.isEmpty = true := by simpa [charsContain] using h
        simpa [List.isEmpty_iff] using he
      exact ⟨[], [], by simp [hp]⟩
    · rintro ⟨l, r, hr⟩
      have h1 := List.append_eq_nil.mp hr.symm
      have h2 := List.append_eq_nil.mp h1.1
      simp [charsContain, h2.2]
  | cons c cs ih =>
    have hu : charsContain (c :: cs) pat
        = (charsLead (c :: cs) pat || charsContain cs pat) := rfl
    rw [hu, Bool.or_eq_true, charsLead_iff, ih]
    constructor
    · rintro (⟨r, hr⟩ | ⟨l, r, hr⟩)
      · exact ⟨[], r, by simpa using hr⟩
      · exact ⟨c :: l, r, by simp [hr]⟩
    · rintro ⟨l, r, hr⟩
      cases l with
      | nil =>
        exact Or.inl ⟨r, by simpa using hr⟩
      | cons x xs =>
        rw [List.cons_append, List.cons_append] at hr
        injection hr with hc hrest
        exact Or.inr ⟨xs, r, by rw [hrest]⟩

/-- `strContains` agrees with the substring-occurrence predicate. -/
theorem strContains_iff (s pat : String) :
    strContains s pat = true ↔ occursIn pat s :=
  charsContain_iff pat.data s.data

/-- The two session-prefixed creation failure texts never coincide with the
already-exists text (their lengths differ: 58 versus at least 100). -/
theorem notFoundMsg_ne_existsMsg (name : String) :
    zellijNotFoundMsg ≠ zellijExistsMsg name := by
  intro h
  have hl := congrArg String.length h
  rw [zellijExistsMsg, strLength_append, strLength_append] at hl
  have l1 : ("session with name \"" : String).length = 19 := rfl
  have l2 : ("\" already exists. Use attach command to connect to it or specify a different name" : String).length = 81 := rfl
  have l3 : zellijNotFoundMsg.length = 58 := rfl
  rw [l1, l2, l3] at hl
  omega

/-- A wrapped subprocess-creation failure text never coincides with the
already-exists text (their first characters differ). -/
theorem createFailMsg_ne_existsMsg (x name : String) :
    "failed to create zellij session: " ++ x ≠ zellijExistsMsg name := by
  intro h
  have hd := congrArg String.data h
  rw [strData_append, zellijExistsMsg, strData_append, strData_append] at hd
  have e1 : ("failed to create zellij session: " : String).data
      = 'f' :: ("ailed to create zellij session: " : String).data := rfl
  have e2 : ("session with name \"" : String).data
      = 's' :: ("ession with name \"" : String).data := rfl
  rw [e1, e2] at hd
  simp only [List.cons_append, List.append_assoc, List.cons.injEq] at hd
  exact absurd hd.1 (by decide)

/-- Evaluation of `zellijSessionExists` when the listing's output is
known. -/
theorem zellijSessionExists_of_output (name out : String) (w : World)
    (tr : List Cmd) (hout : w.outputOf tr.length lsCmd = some out) :
    zellijSessionExists name w tr = (strContains out name, tr ++ [lsCmd]) := by
  simp [zellijSessionExists, runCmdOutput, hout]

/-- C9: on the zellij adapter, session existence is substring containment
over the raw `list-sessions` output: for every name it holds exactly when
the name occurs anywhere in the output (a substring of a longer session
name suffices), and consequently `zellijCreateSession` returns the
already-exists failure exactly in those cases. -/
theorem zellijSessionExists_substring (w : World) (tr : List Cmd)
    (name out : String)
    (hout : w.outputOf tr.length lsCmd = some out) :
    ((zellijSessionExists name w tr).1 = true ↔ occursIn name out) ∧
    (occursIn name out →
      (zellijCreateSession name w tr).1 = .error (.msg (zellijExistsMsg name))) ∧
    (¬ occursIn name out →
      (zellijCreateSession name w tr).1 ≠ .error (.msg (zellijExistsMsg name))) := by
  have hex := zellijSessionExists_of_output name out w tr hout
  refine ⟨?_, ?_, ?_⟩
  · rw [hex]
    exact strContains_iff out name
  · intro hocc
    have hc : strContains out name = true := (strContains_iff out name).mpr hocc
    simp [zellijCreateSession, hex, hc]
  · intro hocc
    have hc : strContains out name = false := by
      cases hb : strContains out name with
      | false => rfl
      | true => exact absurd ((strContains_iff out name).mp hb) hocc
    intro hq
    cases hrun : w.runOk (tr.length + 1)
        { prog := "zellij", args := ["attach", "--create-background", name] } with
    | false =>
      have hval : (zellijCreateSession name w tr).1
          = .error (.msg ("failed to create zellij session: "
              ++ w.errText (tr.length + 1)
                  { prog := "zellij", args := ["attach", "--create-background", name] })) := by
        simp [zellijCreateSession, zellijSessionExists, runCmdOutput, runCmd, hout, hc,
              hrun, GoError.render]
      rw [hval] at hq
      injection hq with h1
      injection h1 with h2
      exact createFailMsg_ne_existsMsg _ name h2
    | true =>
      cases ho2 : w.outputOf (tr.length + 1 + 1) lsCmd with
      | none =>
        have hval : (zellijCreateSession name w tr).1 = .error (.msg zellijNotFoundMsg) := by
          simp [zellijCreateSession, zellijSessionExists, runCmdOutput, runCmd, hout, hc,
                hrun, ho2]
        rw [hval] at hq
        injection hq with h1
        injection h1 with h2
        exact notFoundMsg_ne_existsMsg name h2
      | some out2 =>
        cases hc2 : strContains out2 name with
        | false =>
          have hval : (zellijCreateSession name w tr).1 = .error (.msg zellijNotFoundMsg) := by
            simp [zellijCreateSession, zellijSessionExists, runCmdOutput, runCmd, hout, hc,
                  hrun, ho2, hc2]
          rw [hval] at hq
          injection hq with h1
          injection h1 with h2
          exact notFoundMsg_ne_existsMsg name h2
        | true =>
          have hval : (zellijCreateSession name w tr).1 = .ok () := by
            simp [zellijCreateSession, zellijSessionExists, runCmdOutput, runCmd, hout, hc,
                  hrun, ho2, hc2]
          rw [hval] at hq
          exact absurd hq (by simp)

/-- Witness for C9: with every listing reading "mysession [CREATED 1s ago]",
the name "session" — which names no session exactly but occurs inside
"mysession" — is reported as existing, and creating it fails with the
already-exists error. -/
theorem zellijSessionExists_substring_witness :
    (zellijSessionExists "session" zellijWorld []).1 = true ∧
    (zellijCreateSession "session" zellijWorld []).1 =
      .error (.msg (zellijExistsMsg "session")) := by
  have h := zellijSessionExists_substring zellijWorld [] "session"
      "mysession [CREATED 1s ago]" rfl
  have hocc : occursIn "session" "mysession [CREATED 1s ago]" :=
    ⟨"my".data, " [CREATED 1s ago]".data, rfl⟩
  exact ⟨h.1.mpr hocc, h.2.1 hocc⟩

/-- When the next `n` focus-advance spawns all succeed, the walk issues
exactly `n` of them. -/
theorem focusWalk_all_ok (s : String) (w : World) (n : Nat) :
    ∀ tr : List Cmd,
      (∀ i < n, w.runOk (tr.length + i) (zellijNextPaneCmd s) = true) →
      focusWalk s w n tr = tr ++ List.replicate n (zellijNextPaneCmd s) := by
  induction n with
  | zero =>
    intro tr _
    simp [focusWalk]
  | succ k ih =>
    intro tr h
    have h0 : w.runOk (tr.length + 0) (zellijNextPaneCmd s) = true := h 0 (Nat.succ_pos k)
    rw [Nat.add_zero] at h0
    have hsucc2 : ∀ i < k,
        w.runOk ((tr ++ [zellijNextPaneCmd s]).length + i) (zellijNextPaneCmd s) = true := by
      intro i hi
      have hh := h (i + 1) (Nat.succ_lt_succ hi)
      have hlen : (tr ++ [zellijNextPaneCmd s]).length + i = tr.length + (i + 1) := by
        simp only [List.length_append, List.length_cons, List.length_nil]
        omega
      rw [hlen]
      exact hh
    have hw : focusWalk s w (k + 1) tr = focusWalk s w k (tr ++ [zellijNextPaneCmd s]) := by
      simp [focusWalk, runCmd, h0]
    rw [hw, ih (tr ++ [zellijNextPaneCmd s]) hsucc2,
      List.append_assoc, List.singleton_append, ← List.replicate_succ]

/-- When the walk's `j`-th focus-advance spawn fails after `j` successes,
the walk stops having issued `j + 1` of them. -/
theorem focusWalk_stops (s : String) (w : World) (j : Nat) :
    ∀ (n : Nat) (tr : List Cmd), j < n →
      (∀ i < j, w.runOk (tr.length + i) (zellijNextPaneCmd s) = true) →
      w.runOk (tr.length + j) (zellijNextPaneCmd s) = false →
      focusWalk s w n tr = tr ++ List.replicate (j + 1) (zellijNextPaneCmd s) := by
  induction j with
  | zero =>
    intro n tr hn hsucc hfail
    cases n with
    | zero => omega
    | succ m =>
      rw [Nat.add_zero] at hfail
      simp [focusWalk, runCmd, hfail]
  | succ k ih =>
    intro n tr hn hsucc hfail
    cases n with
    | zero => omega
    | succ m =>
      have h0 : w.runOk (tr.length + 0) (zellijNextPaneCmd s) = true :=
        hsucc 0 (Nat.succ_pos k)
      rw [Nat.add_zero] at h0
      have hsucc2 : ∀ i < k,
          w.runOk ((tr ++ [zellijNextPaneCmd s]).length + i) (zellijNextPaneCmd s) = true := by
        intro i hi
        have hh := hsucc (i + 1) (Nat.succ_lt_succ hi)
        have hlen : (tr ++ [zellijNextPaneCmd s]).length + i = tr.length + (i + 1) := by
          simp only [List.length_append, List.length_cons, List.length_nil]
          omega
        rw [hlen]
        exact hh
      have hfail2 :
          w.runOk ((tr ++ [zellijNextPaneCmd s]).length + k) (zellijNextPaneCmd s) = false := by
        have hlen : (tr ++ [zellijNextPaneCmd s]).length + k = tr.length + (k + 1) := by
          simp only [List.length_append, List.length_cons, List.length_nil]
          omega
        rw [hlen]
        exact hfail
      have hw : focusWalk s w (m + 1) tr = focusWalk s w m (tr ++ [zellijNextPaneCmd s]) := by
        simp [focusWalk, runCmd, h0]
      rw [hw, ih m (tr ++ [zellijNextPaneCmd s]) (by omega) hsucc2 hfail2,
        List.append_assoc, List.singleton_append, ← List.replicate_succ]

/-- When the next `n` resize spawns all succeed, the loop issues exactly
`n` of them and reports success. -/
theorem resizeLoop_all_ok (s d : String) (w : World) (n : Nat) :
    ∀ tr : List Cmd,
      (∀ i < n, w.runOk (tr.length + i) (zellijResizeCmd s d) = true) →
      resizeLoop s d w n tr = (.ok (), tr ++ List.replicate n (zellijResizeCmd s d)) := by
  induction n with
  | zero =>
    intro tr _
    simp [resizeLoop]
  | succ k ih =>
    intro tr h
    have h0 : w.runOk (tr.length + 0) (zellijResizeCmd s d) = true := h 0 (Nat.succ_pos k)
    rw [Nat.add_zero] at h0
    have hsucc2 : ∀ i < k,
        w.runOk ((tr ++ [zellijResizeCmd s d]).length + i) (zellijResizeCmd s d) = true := by
      intro i hi
      have hh := h (i + 1) (Nat.succ_lt_succ hi)
      have hlen : (tr ++ [zellijResizeCmd s d]).length + i = tr.length + (i + 1) := by
        simp only [List.length_append, List.length_cons, List.length_nil]
        omega
      rw [hlen]
      exact hh
    have hw : resizeLoop s d w (k + 1) tr = resizeLoop s d w k (tr ++ [zellijResizeCmd s d]) := by
      simp [resizeLoop, runCmd, h0]
    rw [hw, ih (tr ++ [zellijResizeCmd s d]) hsucc2,
      List.append_assoc, List.singleton_append, ← List.replicate_succ]

/-- Evaluation of `zellijFocusPane` when the session is listed and the
pane argument parses to a positive number: the focus reset (left, up),
then the walk of `target - 1` focus advances, and no error. -/
theorem zellijFocusPane_eq (s win pane out : String) (w : World) (tr : List Cmd)
    (N : Int) (hout : w.outputOf tr.length lsCmd = some out)
    (hc : strContains out s = true)
    (hp : goAtoi pane = some N) (hpos : 0 < N) :
    zellijFocusPane s win pane w tr =
      (.ok (), focusWalk s w (N - 1).toNat
        (tr ++ [lsCmd, zellijLeftCmd s, zellijUpCmd s])) := by
  have hne1 : pane ≠ "" := by
    intro h
    rw [h] at hp
    have h0 : goAtoi "" = none := rfl
    rw [h0] at hp
    exact Option.noConfusion hp
  have hne0 : pane ≠ "0" := by
    intro h
    rw [h] at hp
    have h0 : goAtoi "0" = some 0 := rfl
    rw [h0] at hp
    injection hp with hp0
    omega
  have hex := zellijSessionExists_of_output s out w tr hout
  simp [zellijFocusPane, hex, hc, hne1, hne0, hp, hpos, runCmd, List.append_assoc]

/-- C5: on the zellij adapter, kill-pane with a pane argument parsing to
N ≥ 2 issues (after the two session-listing checks) the focus reset (move
focus left, then up) followed by focus-next-pane steps — N-1 of them when
all succeed, or stopping with the first failing one when fewer panes are
reachable — and then the close-pane action, whose run becomes the
operation's result: the walk itself never produces an error. -/
theorem zellijKillPane_focus_walk (w : World) (tr : List Cmd)
    (s win pane out1 out2 : String) (N : Int)
    (h1 : w.outputOf tr.length lsCmd = some out1)
    (h2 : strContains out1 s = true)
    (h3 : w.outputOf (tr.length + 1) lsCmd = some out2)
    (h4 : strContains out2 s = true)
    (h5 : goAtoi pane = some N) (h6 : 2 ≤ N) :
    ((∀ i < (N - 1).toNat,
        w.runOk (tr.length + 4 + i) (zellijNextPaneCmd s) = true) →
      zellijKillPane s win pane w tr =
        runCmd (zellijClosePaneCmd s) w
          (tr ++ [lsCmd, lsCmd, zellijLeftCmd s, zellijUpCmd s]
            ++ List.replicate (N - 1).toNat (zellijNextPaneCmd s))) ∧
    (∀ j < (N - 1).toNat,
      (∀ i < j, w.runOk (tr.length + 4 + i) (zellijNextPaneCmd s) = true) →
      w.runOk (tr.length + 4 + j) (zellijNextPaneCmd s) = false →
      zellijKillPane s win pane w tr =
        runCmd (zellijClosePaneCmd s) w
          (tr ++ [lsCmd, lsCmd, zellijLeftCmd s, zellijUpCmd s]
            ++ List.replicate (j + 1) (zellijNextPaneCmd s))) := by
  have hex1 := zellijSessionExists_of_output s out1 w tr h1
  have hout2 : w.outputOf (tr ++ [lsCmd]).length lsCmd = some out2 := by
    simpa using h3
  have hfp := zellijFocusPane_eq s win pane out2 w (tr ++ [lsCmd]) N hout2 h4 h5
    (by omega)
  have hkill : zellijKillPane s win pane w tr =
      runCmd (zellijClosePaneCmd s) w
        (focusWalk s w (N - 1).toNat
          (tr ++ [lsCmd, lsCmd, zellijLeftCmd s, zellijUpCmd s])) := by
    simp [zellijKillPane, hex1, h2, hfp, List.append_assoc]
  have hlen4 : ∀ i : Nat,
      (tr ++ [lsCmd, lsCmd, zellijLeftCmd s, zellijUpCmd s]).length + i
        = tr.length + 4 + i := by
    intro i
    simp only [List.length_append, List.length_cons, List.length_nil]
    try omega
  constructor
  · intro hok
    have hok2 : ∀ i < (N - 1).toNat,
        w.runOk ((tr ++ [lsCmd, lsCmd, zellijLeftCmd s, zellijUpCmd s]).length + i)
          (zellijNextPaneCmd s) = true := by
      intro i hi
      rw [hlen4 i]
      exact hok i hi
    rw [hkill, focusWalk_all_ok s w (N - 1).toNat
      (tr ++ [lsCmd, lsCmd, zellijLeftCmd s, zellijUpCmd s]) hok2]
  · intro j hj hsucc hfail
    have hsucc2 : ∀ i < j,
        w.runOk ((tr ++ [lsCmd, lsCmd, zellijLeftCmd s, zellijUpCmd s]).length + i)
          (zellijNextPaneCmd s) = true := by
      intro i hi
      rw [hlen4 i]
      exact hsucc i hi
    have hfail2 :
        w.runOk ((tr ++ [lsCmd, lsCmd, zellijLeftCmd s, zellijUpCmd s]).length + j)
          (zellijNextPaneCmd s) = false := by
      rw [hlen4 j]
      exact hfail
    rw [hkill, focusWalk_stops s w j (N - 1).toNat
      (tr ++ [lsCmd, lsCmd, zellijLeftCmd s, zellijUpCmd s]) hj hsucc2 hfail2]

/-- Witness for C5: `kill-pane s t 3` with every command succeeding issues
the two listing checks, the focus reset, two focus advances and close-pane,
and succeeds; with the first focus advance failing (only two panes
reachable) the walk stops there, close-pane is still issued, and the
operation still succeeds. -/
theorem zellijKillPane_focus_walk_witness :
    zellijKillPane "s" "t" "3" zellijWorld [] =
      (.ok (), [lsCmd, lsCmd, zellijLeftCmd "s", zellijUpCmd "s",
                zellijNextPaneCmd "s", zellijNextPaneCmd "s", zellijClosePaneCmd "s"]) ∧
    zellijKillPane "s" "t" "3" zellijStopWorld [] =
      (.ok (), [lsCmd, lsCmd, zellijLeftCmd "s", zellijUpCmd "s",
                zellijNextPaneCmd "s", zellijClosePaneCmd "s"]) := by
  constructor
  · have h := (zellijKillPane_focus_walk zellijWorld [] "s" "t" "3"
        "mysession [CREATED 1s ago]" "mysession [CREATED 1s ago]" 3
        rfl (by decide) rfl (by decide) rfl (by decide)).1
        (fun _ _ => rfl)
    rw [h]
    rfl
  · have h := (zellijKillPane_focus_walk zellijStopWorld [] "s" "t" "3"
        "mysession [CREATED 1s ago]" "mysession [CREATED 1s ago]" 3
        rfl (by decide) rfl (by decide) rfl (by decide)).2
        0 (by decide) (fun i hi => absurd hi (Nat.not_lt_zero i)) (by decide)
    rw [h]
    rfl

/-- C10: on the zellij adapter, an empty or "0" pane argument skips the
focus walk entirely — the focus-pane helper issues nothing beyond its
session check — and kill-pane, send-keys and resize-pane act directly on
the currently focused pane: their traces hold no focus-reset and no
focus-advance command. -/
theorem zellijFocusPane_skip (w : World) (tr : List Cmd)
    (s win pane keys dir d out1 out2 : String) (size : Int)
    (hpane : pane = "" ∨ pane = "0")
    (h1 : w.outputOf tr.length lsCmd = some out1)
    (h2 : strContains out1 s = true)
    (h3 : w.outputOf (tr.length + 1) lsCmd = some out2)
    (h4 : strContains out2 s = true)
    (hdir : zellijResizeDir dir = some d) :
    zellijFocusPane s win pane w tr = (.ok (), tr ++ [lsCmd]) ∧
    zellijKillPane s win pane w tr =
      runCmd (zellijClosePaneCmd s) w (tr ++ [lsCmd, lsCmd]) ∧
    zellijSendKeys s win pane keys w tr =
      runCmd (zellijSessionCmd s ["action", "write-chars", keys]) w
        (tr ++ [lsCmd, lsCmd]) ∧
    ((∀ i < size.toNat, w.runOk (tr.length + 2 + i) (zellijResizeCmd s d) = true) →
      zellijResizePane s win pane dir size w tr =
        (.ok (), tr ++ [lsCmd, lsCmd]
          ++ List.replicate size.toNat (zellijResizeCmd s d))) := by
  have hex1 := zellijSessionExists_of_output s out1 w tr h1
  have hout2 : w.outputOf (tr ++ [lsCmd]).length lsCmd = some out2 := by
    simpa using h3
  have hex2 := zellijSessionExists_of_output s out2 w (tr ++ [lsCmd]) hout2
  have hfp1 : zellijFocusPane s win pane w tr = (.ok (), tr ++ [lsCmd]) := by
    rcases hpane with hpv | hpv <;> subst hpv <;> simp [zellijFocusPane, hex1, h2]
  have hfp2 : zellijFocusPane s win pane w (tr ++ [lsCmd])
      = (.ok (), (tr ++ [lsCmd]) ++ [lsCmd]) := by
    rcases hpane with hpv | hpv <;> subst hpv <;> simp [zellijFocusPane, hex2, h4]
  refine ⟨hfp1, ?_, ?_, ?_⟩
  · simp [zellijKillPane, hex1, h2, hfp2, List.append_assoc]
  · simp [zellijSendKeys, hex1, h2, hfp2, List.append_assoc]
  · intro hall
    have hstart : ∀ i < size.toNat,
        w.runOk (((tr ++ [lsCmd]) ++ [lsCmd]).length + i) (zellijResizeCmd s d) = true := by
      intro i hi
      have hh := hall i hi
      have hlen : ((tr ++ [lsCmd]) ++ [lsCmd]).length + i = tr.length + 2 + i := by
        simp only [List.length_append, List.length_cons, List.length_nil]
        try omega
      rw [hlen]
      exact hh
    have hr := resizeLoop_all_ok s d w size.toNat ((tr ++ [lsCmd]) ++ [lsCmd]) hstart
    simp only [List.append_assoc, List.singleton_append, List.cons_append,
      List.nil_append] at hr
    simp [zellijResizePane, hex1, h2, hfp2, hdir, hr, List.append_assoc]

/-- Witness for C10: with pane "0", `kill-pane` issues only the two listing
checks and close-pane, and `resize-pane … R 2` issues only the two listing
checks and two right-resize actions — no focus commands anywhere. -/
theorem zellijFocusPane_skip_witness :
    zellijKillPane "s" "t" "0" zellijWorld [] =
      (.ok (), [lsCmd, lsCmd, zellijClosePaneCmd "s"]) ∧
    zellijResizePane "s" "t" "0" "R" 2 zellijWorld [] =
      (.ok (), [lsCmd, lsCmd, zellijResizeCmd "s" "right", zellijResizeCmd "s" "right"]) := by
  have h := zellijFocusPane_skip zellijWorld [] "s" "t" "0" "ls -la" "R" "right"
      "mysession [CREATED 1s ago]" "mysession [CREATED 1s ago]" 2
      (Or.inr rfl) rfl (by decide) rfl (by decide) rfl
  constructor
  · rw [h.2.1]
    rfl
  · have hr := h.2.2.2 (fun _ _ => rfl)
    rw [hr]
    rfl

end Txm
